import Mathlib

/-!
Verification of the namecard OCR pipeline (`ocr_processor.py`).

The development shallowly embeds the extraction pipeline: text blocks with
rational pixel coordinates, DBSCAN clustering with `min_samples = 1`
(equivalently: connected components of the within-`eps` graph), the
aspect-ratio acceptance filter, the stable position sorts, and the per-field
regular-expression extractors.  Python `re` searches are embedded by a small
backtracking matcher covering exactly the constructs the source patterns use
(character classes, literals, case-insensitive literals, alternation, greedy
option and greedy bounded/unbounded class repetition).
-/

namespace Namecard

/-! ## Character classes (Python `str`/`re` semantics for the characters involved) -/

/-- Whitespace recognised by Python `str.strip()` and by `\s` in `re` string
patterns (ASCII whitespace, NEL, NBSP, ogham space, the U+2000 range, line and
paragraph separators, narrow/medium spaces, and the ideographic space). -/
def isPyWhite (c : Char) : Bool :=
  let n := c.toNat
  n == 9 || n == 10 || n == 11 || n == 12 || n == 13 || n == 32 ||
  (decide (28 ≤ n) && decide (n ≤ 31)) || n == 133 || n == 160 || n == 0x1680 ||
  (decide (0x2000 ≤ n) && decide (n ≤ 0x200A)) ||
  n == 0x2028 || n == 0x2029 || n == 0x202F || n == 0x205F || n == 0x3000

/-- Decimal digits for `\d` (ASCII and full-width forms, the decimal-digit
characters that occur in these inputs). -/
def isReDigit (c : Char) : Bool :=
  let n := c.toNat
  (decide (48 ≤ n) && decide (n ≤ 57)) || (decide (0xFF10 ≤ n) && decide (n ≤ 0xFF19))

def isAsciiDigit (c : Char) : Bool :=
  decide (48 ≤ c.toNat) && decide (c.toNat ≤ 57)

def isUpperAscii (c : Char) : Bool :=
  decide (65 ≤ c.toNat) && decide (c.toNat ≤ 90)

def isLowerAscii (c : Char) : Bool :=
  decide (97 ≤ c.toNat) && decide (c.toNat ≤ 122)

def isAsciiAlpha (c : Char) : Bool :=
  isUpperAscii c || isLowerAscii c

/-- CJK unified ideographs, the `[一-鿿]` class of the name patterns. -/
def isCJK (c : Char) : Bool :=
  decide (0x4E00 ≤ c.toNat) && decide (c.toNat ≤ 0x9FFF)

/-- The `[a-zA-Z0-9._%+-]` class (local part of the e-mail pattern). -/
def isEmailLocalChar (c : Char) : Bool :=
  isAsciiAlpha c || isAsciiDigit c || c == '.' || c == '_' || c == '%' || c == '+' || c == '-'

/-- The `[a-zA-Z0-9.-]` class (e-mail domain, and the bare-domain website pattern). -/
def isDomChar (c : Char) : Bool :=
  isAsciiAlpha c || isAsciiDigit c || c == '.' || c == '-'

/-- The `[:\s]` class used after the TEL/Mobile labels. -/
def isColonWs (c : Char) : Bool :=
  c == ':' || isPyWhite c

/-- The `[\s　]` class of the Japanese-name pattern (`\s` already contains `　`). -/
def isNameSpace (c : Char) : Bool :=
  isPyWhite c || c == '　'

/-- The `[^\s]` class of the website patterns. -/
def isNonWs (c : Char) : Bool :=
  !(isPyWhite c)

/-! ## String helpers -/

/-- Substring containment, Python's `needle in hay`. -/
def containsSeq (needle : List Char) : List Char → Bool
  | [] => needle.isEmpty
  | c :: t => needle.isPrefixOf (c :: t) || containsSeq needle t

/-- Python `str.strip()`: drop leading and trailing whitespace. -/
def pyStrip (l : List Char) : List Char :=
  ((l.dropWhile isPyWhite).reverse.dropWhile isPyWhite).reverse

/-- Python `text.split('\n')`: split into lines, keeping empty segments. -/
def splitLines : List Char → List (List Char)
  | [] => [[]]
  | c :: t =>
    if c == '\n' then [] :: splitLines t
    else
      match splitLines t with
      | [] => [[c]]
      | l :: ls => (c :: l) :: ls

/-- Python `'\n'.join(...)`. -/
def joinLines : List (List Char) → List Char
  | [] => []
  | [l] => l
  | l :: l2 :: ls => l ++ '\n' :: joinLines (l2 :: ls)

/-- Case-insensitive prefix test against a lower-case pattern
(Python `re.IGNORECASE` on ASCII literals). -/
def ciPrefix : List Char → List Char → Bool
  | [], _ => true
  | _ :: _, [] => false
  | c :: cs, d :: ds => (d.toLower == c) && ciPrefix cs ds

/-! ## A small backtracking regex engine

Covers exactly the constructs of the source's patterns.  `rep p lo hi` is
greedy repetition of a character class (`hi = none` means unbounded);
`opt` is greedy `?`; alternatives of `alt` are tried left to right, as in
Python's backtracking engine. -/

inductive RE where
  | eps : RE
  | cls (p : Char → Bool) : RE
  | str (cs : List Char) : RE
  | ciStr (cs : List Char) : RE
  | seq (a b : RE) : RE
  | alt (a b : RE) : RE
  | opt (a : RE) : RE
  | rep (p : Char → Bool) (lo : Nat) (hi : Option Nat) : RE

/-- Length of the maximal run of characters satisfying `p`. -/
def runLen (p : Char → Bool) : List Char → Nat
  | [] => 0
  | c :: t => if p c then runLen p t + 1 else 0

/-- Greedy repetition: try consuming `j` characters, then `j-1`, … down to `lo`. -/
def repTry (k : List Char → Option (List Char)) (s : List Char) (lo : Nat) :
    Nat → Option (List Char)
  | 0 => if lo = 0 then k s else none
  | j + 1 => if j + 1 < lo then none else (k (s.drop (j + 1))).orElse fun _ => repTry k s lo j

/-- CPS backtracking matcher: match `r` at the head of `s`, feeding the rest of
the input to the continuation `k`; a `none` from `k` drives backtracking. -/
def reMatch : RE → List Char → (List Char → Option (List Char)) → Option (List Char)
  | .eps, s, k => k s
  | .cls p, s, k =>
    match s with
    | [] => none
    | c :: t => if p c then k t else none
  | .str cs, s, k => if cs.isPrefixOf s then k (s.drop cs.length) else none
  | .ciStr cs, s, k => if ciPrefix cs s then k (s.drop cs.length) else none
  | .seq a b, s, k => reMatch a s fun t => reMatch b t k
  | .alt a b, s, k => (reMatch a s k).orElse fun _ => reMatch b s k
  | .opt a, s, k => (reMatch a s k).orElse fun _ => k s
  | .rep p lo hi, s, k =>
    let m := runLen p s
    repTry k s lo (match hi with | none => m | some h => min m h)

/-- `re.search`/first element of `re.findall`: the leftmost match, returned as
(matched characters, rest of the input after the match). -/
def findFirstFrom (r : RE) : List Char → Option (List Char × List Char)
  | [] =>
    match reMatch r [] some with
    | some rest => some ([], rest)
    | none => none
  | c :: t =>
    match reMatch r (c :: t) some with
    | some rest => some ((c :: t).take ((c :: t).length - rest.length), rest)
    | none => findFirstFrom r t

/-- All matches of `re.findall`, fuelled (every source pattern matches at least
one character, so `length + 1` fuel always suffices). -/
def findAllAux (r : RE) : Nat → List Char → List (List Char)
  | 0, _ => []
  | fuel + 1, s =>
    match findFirstFrom r s with
    | none => []
    | some (m, rest) => if m.isEmpty then [] else m :: findAllAux r fuel rest

def findAll (r : RE) (s : List Char) : List (List Char) :=
  findAllAux r (s.length + 1) s

/-- `re.sub(r, '', s)`: delete every non-overlapping leftmost match. -/
def reSubAll (r : RE) : Nat → List Char → List Char
  | 0, s => s
  | fuel + 1, s =>
    match reMatch r s some with
    | some rest =>
      if rest.length = s.length then
        match s with
        | [] => []
        | c :: t => c :: reSubAll r fuel t
      else reSubAll r fuel rest
    | none =>
      match s with
      | [] => []
      | c :: t => c :: reSubAll r fuel t

def subAll (r : RE) (s : List Char) : List Char :=
  reSubAll r (s.length + 1) s

/-- Right-nested sequencing of a pattern list. -/
def seqs : List RE → RE
  | [] => .eps
  | r :: rs => .seq r (seqs rs)

/-! ## Field extractors (the `extract_*` methods of `OCRProcessor`) -/

/-- `[a-zA-Z0-9._%+-]+@[a-zA-Z0-9.-]+\.[a-zA-Z]{2,}` -/
def emailPat : RE :=
  seqs [.rep isEmailLocalChar 1 none, .cls (fun c => c == '@'),
        .rep isDomChar 1 none, .cls (fun c => c == '.'), .rep isAsciiAlpha 2 none]

def extract_email (t : String) : Option String :=
  (findFirstFrom emailPat t.data).map fun p => String.mk p.1

/-- The `(?:TEL|Tel|tel|電話)` group; under `re.IGNORECASE` its three Latin
alternatives all denote the same case-insensitive literal. -/
def telLabel : RE := .alt (.ciStr "tel".data) (.str "電話".data)

/-- `[:\s]*` -/
def colonWsStar : RE := .rep isColonWs 0 none

/-- `(?:TEL|Tel|tel|電話)?[:\s]*0\d{1,4}-\d{1,4}-\d{4}` -/
def phonePat1 : RE :=
  seqs [.opt telLabel, colonWsStar, .cls (fun c => c == '0'),
        .rep isReDigit 1 (some 4), .cls (fun c => c == '-'),
        .rep isReDigit 1 (some 4), .cls (fun c => c == '-'),
        .rep isReDigit 4 (some 4)]

/-- `(?:TEL|Tel|tel|電話)?[:\s]*0\d{9,10}` -/
def phonePat2 : RE :=
  seqs [.opt telLabel, colonWsStar, .cls (fun c => c == '0'), .rep isReDigit 9 (some 10)]

/-- The substitution pattern `(?:TEL|Tel|tel|電話)[:\s]*` (label required). -/
def telSubPat : RE := .seq telLabel colonWsStar

/-- `text.replace(' ', '').replace('　', '')`. -/
def stripSpaces (l : List Char) : List Char :=
  (l.filter fun c => !(c == ' ')).filter fun c => !(c == '　')

/-- `phone.startswith(('070', '080', '090'))`. -/
def isMobileNumber (l : List Char) : Bool :=
  "070".data.isPrefixOf l || "080".data.isPrefixOf l || "090".data.isPrefixOf l

/-- One iteration of the pattern loop of `extract_phone`: commit to the first
match of this pattern, strip the label, and yield it unless it is mobile. -/
def phoneTryPat (r : RE) (s : List Char) : Option String :=
  match findFirstFrom r s with
  | none => none
  | some (m, _) =>
    let ph := subAll telSubPat m
    if isMobileNumber ph then none else some (String.mk ph)

def extract_phone (t : String) : Option String :=
  let s := stripSpaces t.data
  (phoneTryPat phonePat1 s).orElse fun _ => phoneTryPat phonePat2 s

/-- The `(?:Mobile|mobile|携帯|FAX)` group under `re.IGNORECASE`. -/
def mobileLabel : RE :=
  .alt (.ciStr "mobile".data)
    (.alt (.ciStr "mobile".data) (.alt (.str "携帯".data) (.ciStr "fax".data)))

/-- `(?:Mobile|mobile|携帯|FAX)?[:\s]*0[789]0-?\d{4}-?\d{4}` -/
def mobilePat : RE :=
  seqs [.opt mobileLabel, colonWsStar, .cls (fun c => c == '0'),
        .cls (fun c => c == '7' || c == '8' || c == '9'), .cls (fun c => c == '0'),
        .opt (.cls (fun c => c == '-')), .rep isReDigit 4 (some 4),
        .opt (.cls (fun c => c == '-')), .rep isReDigit 4 (some 4)]

/-- The substitution pattern `(?:Mobile|mobile|携帯)[:\s]*` (no FAX alternative). -/
def mobileSubPat : RE :=
  .seq (.alt (.ciStr "mobile".data) (.alt (.ciStr "mobile".data) (.str "携帯".data)))
    colonWsStar

/-- The loop over `re.findall` results: skip candidates containing the exact
substrings `FAX` or `fax`, return the first remaining one with its
Mobile/携帯 label removed. -/
def mobileLoop : List (List Char) → Option String
  | [] => none
  | m :: rest =>
    if containsSeq "FAX".data m || containsSeq "fax".data m then mobileLoop rest
    else some (String.mk (subAll mobileSubPat m))

def extract_mobile (t : String) : Option String :=
  mobileLoop (findAll mobilePat (stripSpaces t.data))

/-- `^[一-鿿]{2,4}[\s　]+[一-鿿]{1,4}$` (CJK surname, spacing, CJK given name). -/
def namePat1 : RE :=
  seqs [.rep isCJK 2 (some 4), .rep isNameSpace 1 none, .rep isCJK 1 (some 4)]

/-- `^[A-Z][a-z]+\s+[A-Z][a-z]+$` -/
def namePat2 : RE :=
  seqs [.cls isUpperAscii, .rep isLowerAscii 1 none, .rep isPyWhite 1 none,
        .cls isUpperAscii, .rep isLowerAscii 1 none]

/-- `re.match` of a `^…$` pattern viewed as a Bool: anchored full match. -/
def matchesFull (r : RE) (s : List Char) : Bool :=
  (reMatch r s fun rest => if rest.isEmpty then some rest else none).isSome

def nameLoop : List (List Char) → Option String
  | [] => none
  | l :: rest =>
    let line := pyStrip l
    if matchesFull namePat1 line then some (String.mk line)
    else if matchesFull namePat2 line then some (String.mk line)
    else nameLoop rest

def extract_name (t : String) : Option String :=
  nameLoop ((splitLines t.data).take 5)

def companyKeywords : List String :=
  ["株式会社", "有限会社", "合同会社", "合資会社",
   "社団法人", "財団法人", "医療法人",
   "Co.", "Ltd.", "Inc.", "Corporation", "Corp.",
   "K.K.", "GK", "LLC"]

def companyLoop : List (List Char) → Option String
  | [] => none
  | l :: rest =>
    if companyKeywords.any (fun kw => containsSeq kw.data l) then
      some (String.mk (pyStrip l))
    else companyLoop rest

def extract_company (t : String) : Option String :=
  companyLoop ((splitLines t.data).take 10)

def prefectures : List String :=
  ["北海道", "青森県", "岩手県", "宮城県", "秋田県", "山形県", "福島県",
   "茨城県", "栃木県", "群馬県", "埼玉県", "千葉県", "東京都", "神奈川県",
   "新潟県", "富山県", "石川県", "福井県", "山梨県", "長野県", "岐阜県",
   "静岡県", "愛知県", "三重県", "滋賀県", "京都府", "大阪府", "兵庫県",
   "奈良県", "和歌山県", "鳥取県", "島根県", "岡山県", "広島県", "山口県",
   "徳島県", "香川県", "愛媛県", "高知県", "福岡県", "佐賀県", "長崎県",
   "熊本県", "大分県", "宮崎県", "鹿児島県", "沖縄県"]

/-- `〒?\d{3}-?\d{4}` -/
def postalPat : RE :=
  seqs [.opt (.cls (fun c => c == '〒')), .rep isReDigit 3 (some 3),
        .opt (.cls (fun c => c == '-')), .rep isReDigit 4 (some 4)]

/-- Line loop of `extract_address`: on the first line with a postal code or a
prefecture name, append the following line (when any) and strip. -/
def addrLoop : List (List Char) → Option String
  | [] => none
  | l :: rest =>
    if (findFirstFrom postalPat l).isSome ||
        prefectures.any (fun p => containsSeq p.data l) then
      some (String.mk (pyStrip (match rest with
        | [] => l
        | nxt :: _ => l ++ ' ' :: nxt)))
    else addrLoop rest

def extract_address (t : String) : Option String :=
  addrLoop (splitLines t.data)

/-- `https?://[^\s]+` -/
def websitePat1 : RE :=
  seqs [.ciStr "http".data, .opt (.cls (fun c => c.toLower == 's')), .str "://".data,
        .rep isNonWs 1 none]

/-- `www\.[^\s]+` -/
def websitePat2 : RE :=
  seqs [.ciStr "www".data, .cls (fun c => c == '.'), .rep isNonWs 1 none]

/-- The alternatives of the capturing group `(com|co\.jp|jp|net|org|info)`,
in pattern order. -/
def tldAlternatives : List (List Char) :=
  ["com".data, "co.jp".data, "jp".data, "net".data, "org".data, "info".data]

def tldTry (s : List Char) : Option (List Char) :=
  tldAlternatives.findSome? fun tld =>
    if ciPrefix tld s then some (s.take tld.length) else none

/-- Backtracking over the greedy `[a-zA-Z0-9.-]+` prefix length (longest
first); on each split, require a literal `.` and then one group alternative.
Returns the text captured by the group, as `re.findall` does when the pattern
has one group. -/
def w3Try (s : List Char) : Nat → Option (List Char)
  | 0 => none
  | j + 1 =>
    (match s.drop (j + 1) with
     | [] => none
     | c :: r2 => if c == '.' then tldTry r2 else none).orElse fun _ => w3Try s j

/-- Leftmost match of `[a-zA-Z0-9.-]+\.(com|co\.jp|jp|net|org|info)`,
returning the captured group. -/
def w3First : List Char → Option (List Char)
  | [] => none
  | c :: t => (w3Try (c :: t) (runLen isDomChar (c :: t))).orElse fun _ => w3First t

def extract_website (t : String) : Option String :=
  match findFirstFrom websitePat1 t.data with
  | some (m, _) => some (String.mk (pyStrip m))
  | none =>
    match findFirstFrom websitePat2 t.data with
    | some (m, _) => some (String.mk (pyStrip m))
    | none =>
      match w3First t.data with
      | some g => some (String.mk (pyStrip g))
      | none => none

/-! ## Data model

A `TextBlock` is one OCR-reported block with its centroid and bounding box.
Coordinates are integers in an arbitrary fixed subpixel unit: every decision
the pipeline makes about them (the `eps` guard, the neighbourhood predicate,
the aspect-ratio window, the position sorts) is invariant under a common
positive scaling, so integer coordinates model arbitrary rational centroid
values without loss of generality. -/

structure TextBlock where
  text : String
  x : ℤ
  y : ℤ
  min_x : ℤ
  max_x : ℤ
  min_y : ℤ
  max_y : ℤ
deriving DecidableEq

/-- The per-card dictionary built by `extract_info_from_text`. -/
structure ContactRecord where
  name : Option String
  company : Option String
  email : Option String
  phone : Option String
  mobile : Option String
  address : Option String
  website : Option String
  full_text : String
deriving DecidableEq

/-- `if not text or not text.strip(): return None`, then the field dictionary. -/
def extract_info_from_text (t : String) : Option ContactRecord :=
  if t.data.isEmpty || (pyStrip t.data).isEmpty then none
  else
    some ⟨extract_name t, extract_company t, extract_email t, extract_phone t,
          extract_mobile t, extract_address t, extract_website t, t⟩

/-! ## Clustering (`group_text_by_clustering`)

`DBSCAN(eps, min_samples=1)` makes every point a core point, so its clusters
are exactly the connected components of the graph joining two blocks whose
centroid distance is at most `eps`, there is no noise label, and labels are
assigned in first-occurrence order of the components (scikit-learn scans
points in index order; iterating the resulting label set visits the small
consecutive integer labels in increasing order).  Components are therefore
listed in order of their smallest block index, each component holding its
block indices in increasing order exactly as `np.where(labels == label)`
produces them. -/

def defaultBlock : TextBlock := ⟨"", 0, 0, 0, 0, 0, 0⟩

/-- Python `min` over a list (the empty case never arises in the pipeline). -/
def minZ : List ℤ → ℤ
  | [] => 0
  | x :: xs => xs.foldl min x

def maxZ : List ℤ → ℤ
  | [] => 0
  | x :: xs => xs.foldl max x

/-- Centroid distance of two blocks is at most `eps = 0.15 * m`; squaring both
sides and scaling by `400` states this in integers:
`dist² ≤ (3m/20)²  ↔  400·dist² ≤ 9·m²`. -/
def closeEnough (m : ℤ) (a b : TextBlock) : Bool :=
  decide (400 * ((a.x - b.x) ^ 2 + (a.y - b.y) ^ 2) ≤ 9 * m ^ 2)

/-- One step of neighbourhood growth in the within-`eps` graph. -/
def reachStep (adj : Nat → Nat → Bool) (n : Nat) (cur : List Nat) : List Nat :=
  (List.range n).filter fun j => decide (j ∈ cur) || cur.any fun i => adj i j

/-- Indices connected to `i`: `n` growth steps reach the whole component. -/
def reachSet (adj : Nat → Nat → Bool) (n i : Nat) : List Nat :=
  (reachStep adj n)^[n] [i]

/-- The component of `i`, named by its smallest member. -/
def dbscanLabel (adj : Nat → Nat → Bool) (n i : Nat) : Nat :=
  (((List.range n).find? fun j => decide (j ∈ reachSet adj n i)).getD i)

def firstOccsAux (seen : List Nat) : List Nat → List Nat
  | [] => []
  | x :: xs =>
    if decide (x ∈ seen) then firstOccsAux seen xs
    else x :: firstOccsAux (x :: seen) xs

/-- The distinct values of a list in first-occurrence order (the iteration
order of the label set). -/
def firstOccs (l : List Nat) : List Nat := firstOccsAux [] l

def componentsOf (adj : Nat → Nat → Bool) (n : Nat) : List (List Nat) :=
  (firstOccs ((List.range n).map (dbscanLabel adj n))).map fun L =>
    (List.range n).filter fun i => decide (dbscanLabel adj n i = L)

def clusterMinX (g : List TextBlock) : ℤ := minZ (g.map (·.min_x))
def clusterMaxX (g : List TextBlock) : ℤ := maxZ (g.map (·.max_x))
def clusterMinY (g : List TextBlock) : ℤ := minZ (g.map (·.min_y))
def clusterMaxY (g : List TextBlock) : ℤ := maxZ (g.map (·.max_y))
def clusterWidth (g : List TextBlock) : ℤ := clusterMaxX g - clusterMinX g
def clusterHeight (g : List TextBlock) : ℤ := clusterMaxY g - clusterMinY g

/-- `aspect_ratio = cluster_width / cluster_height if cluster_height > 0 else 0`:
the guarded ratio, defined as `0` for non-positive height with no division. -/
def clusterAspect (g : List TextBlock) : ℚ :=
  if 0 < clusterHeight g then (clusterWidth g : ℚ) / (clusterHeight g : ℚ) else 0

/-- Executable form of `0.5 <= aspect_ratio <= 4.0`: for positive height,
`1/2 ≤ w/h ↔ h ≤ 2w` and `w/h ≤ 4 ↔ w ≤ 4h`; a non-positive height gives
ratio `0`, which is outside the window.  `aspect_window_iff` below proves the
equivalence with the ratio-level condition. -/
def acceptAspectB (g : List TextBlock) : Bool :=
  if 0 < clusterHeight g then
    decide (clusterHeight g ≤ 2 * clusterWidth g) &&
      decide (clusterWidth g ≤ 4 * clusterHeight g)
  else false

/-- Stable insertion: `a` goes in front of the first element it compares `≤` to.
Inserting earlier-listed elements last, this reproduces Python's stable sort
for a total preorder comparison. -/
def insertByLe (le : α → α → Bool) (a : α) : List α → List α
  | [] => [a]
  | b :: bs => if le a b then a :: b :: bs else b :: insertByLe le a bs

def sortByLe (le : α → α → Bool) : List α → List α
  | [] => []
  | a :: as => insertByLe le a (sortByLe le as)

/-- `cluster_blocks.sort(key=lambda b: b['y'])`. -/
def blockLe (a b : TextBlock) : Bool := decide (a.y ≤ b.y)

def sortBlocksByY (g : List TextBlock) : List TextBlock := sortByLe blockLe g

/-- Per-candidate-cluster body of the acceptance loop: skip empty clusters
(`len < 1`), test the aspect window, sort the survivors top to bottom. -/
def acceptCluster (g : List TextBlock) : Option (List TextBlock) :=
  if g.length < 1 then none
  else if acceptAspectB g then some (sortBlocksByY g) else none

/-- Same, keeping the cluster's index list alongside its blocks. -/
def acceptClusterIdx (blocks : List TextBlock) (comp : List Nat) :
    Option (List Nat × List TextBlock) :=
  match acceptCluster (comp.filterMap fun i => blocks.get? i) with
  | some g => some (comp, g)
  | none => none

/-- Sort key of the final group sort: `(min(b['y']), min(b['x']))`. -/
def groupKey (g : List TextBlock) : ℤ × ℤ := (minZ (g.map (·.y)), minZ (g.map (·.x)))

/-- Lexicographic tuple comparison of Python's sort. -/
def keyLe (p q : ℤ × ℤ) : Bool :=
  decide (p.1 < q.1) || (decide (p.1 = q.1) && decide (p.2 ≤ q.2))

def pairLe (p q : List Nat × List TextBlock) : Bool :=
  keyLe (groupKey p.2) (groupKey q.2)

/-- `group_text_by_clustering`, with each produced group accompanied by its
block-index list.  `none` models the exception path: scikit-learn's `DBSCAN`
raises `ValueError` when `eps ≤ 0`, i.e. exactly when
`min(x_range, y_range) ≤ 0`. -/
def clusteringPairs (maxCards : Nat) (blocks : List TextBlock) :
    Option (List (List Nat × List TextBlock)) :=
  match blocks with
  | [] => some []
  | [b] => some [([0], [b])]
  | _ =>
    let n := blocks.length
    let xr := maxZ (blocks.map (·.max_x)) - minZ (blocks.map (·.min_x))
    let yr := maxZ (blocks.map (·.max_y)) - minZ (blocks.map (·.min_y))
    let m := min xr yr
    if m ≤ 0 then none
    else
      let adj := fun i j =>
        closeEnough m (blocks.getD i defaultBlock) (blocks.getD j defaultBlock)
      let accepted := (componentsOf adj n).filterMap (acceptClusterIdx blocks)
      some ((sortByLe pairLe accepted).take maxCards)

def group_text_by_clustering (maxCards : Nat) (blocks : List TextBlock) :
    Option (List (List TextBlock)) :=
  (clusteringPairs maxCards blocks).map (List.map Prod.snd)

/-! ## Pipeline (`process_image`) -/

/-- `'\n'.join(block['text'] for block in group)`. -/
def joinTexts (g : List TextBlock) : String :=
  String.mk (joinLines (g.map fun b => b.text.data))

/-- Python truthiness of an optional string. -/
def truthy : Option String → Bool
  | none => false
  | some s => !s.data.isEmpty

/-- Build one card's record and apply the retention bar
`info and (info.get('name') or info.get('company') or info.get('email'))`. -/
def recordOf (g : List TextBlock) : Option ContactRecord :=
  match extract_info_from_text (joinTexts g) with
  | none => none
  | some info =>
    if truthy info.name || truthy info.company || truthy info.email then some info
    else none

def pipelineRecords (groups : List (List TextBlock)) : List ContactRecord :=
  groups.filterMap recordOf

/-- `process_image`: the input is the OCR adapter's outcome (`Except.error`
for a raised backend error).  The top-level `try/except` converts every raised
exception into `None`; `return []` answers the no-text case; and
`return results if results else None` yields `None` when no record survives
the retention bar. -/
def process_image (ocr : Except String (List TextBlock)) : Option (List ContactRecord) :=
  match ocr with
  | .error _ => none
  | .ok blocks =>
    if blocks.isEmpty then some []
    else
      match group_text_by_clustering 9 blocks with
      | none => none
      | some groups =>
        let results := pipelineRecords groups
        if results.isEmpty then none else some results

/-- The blocks-to-records pipeline (clustering followed by extraction). -/
def processBlocks (blocks : List TextBlock) : Option (List ContactRecord) :=
  process_image (Except.ok blocks)

/-! ## Concrete fixtures used to instantiate the universal statements -/

/-- A card-shaped block on the left of a two-card photo. -/
def blockW1 : TextBlock := ⟨"alpha", 20, 10, 0, 40, 0, 20⟩

/-- A card-shaped block far to the right of `blockW1`. -/
def blockW2 : TextBlock := ⟨"beta", 120, 10, 100, 140, 0, 20⟩

/-- A block whose text yields no name, company or e-mail. -/
def blockXYZ : TextBlock := ⟨"xyz", 0, 0, 0, 0, 0, 0⟩

/-- A block whose text contains a legal-entity keyword. -/
def companyBlockW : TextBlock := ⟨"株式会社テスト", 0, 0, 0, 0, 0, 0⟩

/-- The record the pipeline produces for `companyBlockW`. -/
def companyRecordW : ContactRecord :=
  ⟨none, some "株式会社テスト", none, none, none, none, none, "株式会社テスト"⟩

/-- A keyword line longer than 100 characters. -/
def longCompanyLine : String := String.mk ("株式会社".data ++ List.replicate 120 'a')

/-- A block with positive width and zero height. -/
def zeroHeightBlock : TextBlock := ⟨"w", 2, 3, 0, 5, 3, 3⟩

/-! ## Lemmas about the stable insertion sort -/

theorem insertByLe_perm (le : α → α → Bool) (a : α) (l : List α) :
    List.Perm (insertByLe le a l) (a :: l) := by
  induction l with
  | nil => rfl
  | cons b bs ih =>
    simp only [insertByLe]
    split
    · exact List.Perm.refl _
    · exact (ih.cons b).trans (List.Perm.swap a b bs)

theorem sortByLe_perm (le : α → α → Bool) (l : List α) : List.Perm (sortByLe le l) l := by
  induction l with
  | nil => rfl
  | cons a as ih => exact (insertByLe_perm le a _).trans (ih.cons a)

theorem mem_sortByLe {le : α → α → Bool} {l : List α} {a : α} :
    a ∈ sortByLe le l ↔ a ∈ l :=
  (sortByLe_perm le l).mem_iff

theorem pairwise_insertByLe (le : α → α → Bool)
    (htot : ∀ a b, le a b = true ∨ le b a = true)
    (htrans : ∀ a b c, le a b = true → le b c = true → le a c = true)
    (a : α) (l : List α) (h : l.Pairwise fun x y => le x y = true) :
    (insertByLe le a l).Pairwise fun x y => le x y = true := by
  induction l with
  | nil => simp [insertByLe]
  | cons b bs ih =>
    rcases List.pairwise_cons.1 h with ⟨hb, hbs⟩
    simp only [insertByLe]
    split
    case isTrue hab =>
      refine List.pairwise_cons.2 ⟨?_, h⟩
      intro x hx
      rcases List.mem_cons.1 hx with rfl | hx
      · exact hab
      · exact htrans a b x hab (hb x hx)
    case isFalse hab =>
      have hba : le b a = true := (htot a b).resolve_left hab
      refine List.pairwise_cons.2 ⟨?_, ih hbs⟩
      intro x hx
      have hx2 : x = a ∨ x ∈ bs := by
        simpa using (insertByLe_perm le a bs).mem_iff.1 hx
      rcases hx2 with rfl | hx2
      · exact hba
      · exact hb x hx2

theorem pairwise_sortByLe (le : α → α → Bool)
    (htot : ∀ a b, le a b = true ∨ le b a = true)
    (htrans : ∀ a b c, le a b = true → le b c = true → le a c = true)
    (l : List α) :
    (sortByLe le l).Pairwise fun x y => le x y = true := by
  induction l with
  | nil => simp [sortByLe]
  | cons a as ih => exact pairwise_insertByLe le htot htrans a _ ih

/-! ## Lemmas about first-occurrence deduplication -/

theorem mem_of_mem_firstOccsAux {x : Nat} :
    ∀ {seen l : List Nat}, x ∈ firstOccsAux seen l → x ∈ l := by
  intro seen l
  induction l generalizing seen with
  | nil => simp [firstOccsAux]
  | cons y ys ih =>
    simp only [firstOccsAux]
    split
    · intro h; exact List.mem_cons_of_mem _ (ih h)
    · intro h
      rcases List.mem_cons.1 h with rfl | h
      · exact List.mem_cons_self _ _
      · exact List.mem_cons_of_mem _ (ih h)

theorem not_mem_firstOccsAux_of_seen {x : Nat} :
    ∀ {seen l : List Nat}, x ∈ seen → x ∉ firstOccsAux seen l := by
  intro seen l
  induction l generalizing seen with
  | nil => intro _; simp [firstOccsAux]
  | cons y ys ih =>
    intro hx
    simp only [firstOccsAux]
    split
    · exact ih hx
    case isFalse hy =>
      intro hmem
      rcases List.mem_cons.1 hmem with rfl | hmem
      · exact hy (decide_eq_true hx)
      · exact ih (List.mem_cons_of_mem _ hx) hmem

theorem nodup_firstOccsAux : ∀ (seen l : List Nat), (firstOccsAux seen l).Nodup := by
  intro seen l
  induction l generalizing seen with
  | nil => simp [firstOccsAux]
  | cons y ys ih =>
    simp only [firstOccsAux]
    split
    · exact ih seen
    · exact List.nodup_cons.2
        ⟨not_mem_firstOccsAux_of_seen (List.mem_cons_self y seen), ih (y :: seen)⟩

theorem nodup_firstOccs (l : List Nat) : (firstOccs l).Nodup :=
  nodup_firstOccsAux [] l

/-! ## Disjointness of the clustering components -/

theorem componentsOf_pairwise_disjoint (adj : Nat → Nat → Bool) (n : Nat) :
    (componentsOf adj n).Pairwise fun c d => ∀ i, i ∈ c → i ∉ d := by
  unfold componentsOf
  refine List.Pairwise.map _ ?_ (nodup_firstOccs _)
  intro L1 L2 hne i hi1 hi2
  have h1 : dbscanLabel adj n i = L1 := by
    simpa using (List.mem_filter.1 hi1).2
  have h2 : dbscanLabel adj n i = L2 := by
    simpa using (List.mem_filter.1 hi2).2
  exact hne (h1 ▸ h2)

/-! ## Comparator properties -/

theorem blockLe_total (a b : TextBlock) : blockLe a b = true ∨ blockLe b a = true := by
  unfold blockLe
  rcases le_total a.y b.y with h | h
  · left; simpa using h
  · right; simpa using h

theorem blockLe_trans (a b c : TextBlock) :
    blockLe a b = true → blockLe b c = true → blockLe a c = true := by
  unfold blockLe
  intro h1 h2
  simp only [decide_eq_true_iff] at h1 h2 ⊢
  exact le_trans h1 h2

theorem keyLe_iff (p q : ℤ × ℤ) :
    keyLe p q = true ↔ p.1 < q.1 ∨ (p.1 = q.1 ∧ p.2 ≤ q.2) := by
  unfold keyLe
  simp [Bool.or_eq_true, Bool.and_eq_true, decide_eq_true_iff]

theorem keyLe_total (p q : ℤ × ℤ) : keyLe p q = true ∨ keyLe q p = true := by
  rw [keyLe_iff, keyLe_iff]
  rcases lt_trichotomy p.1 q.1 with h | h | h
  · exact Or.inl (Or.inl h)
  · rcases le_total p.2 q.2 with h2 | h2
    · exact Or.inl (Or.inr ⟨h, h2⟩)
    · exact Or.inr (Or.inr ⟨h.symm, h2⟩)
  · exact Or.inr (Or.inl h)

theorem keyLe_trans (p q r : ℤ × ℤ) :
    keyLe p q = true → keyLe q r = true → keyLe p r = true := by
  rw [keyLe_iff, keyLe_iff, keyLe_iff]
  rintro (h1 | ⟨e1, h1⟩) (h2 | ⟨e2, h2⟩)
  · exact Or.inl (h1.trans h2)
  · exact Or.inl (e2 ▸ h1)
  · exact Or.inl (e1 ▸ h2)
  · exact Or.inr ⟨e1.trans e2, h1.trans h2⟩

theorem pairLe_total (p q : List Nat × List TextBlock) :
    pairLe p q = true ∨ pairLe q p = true :=
  keyLe_total _ _

theorem pairLe_trans (p q r : List Nat × List TextBlock) :
    pairLe p q = true → pairLe q r = true → pairLe p r = true :=
  keyLe_trans _ _ _

/-! ## The acceptance filter -/

/-- The executable aspect test agrees with `0.5 <= aspect_ratio <= 4.0` on the
exact rational ratio the source computes. -/
theorem aspect_window_iff (g : List TextBlock) :
    acceptAspectB g = true ↔ (1 / 2 : ℚ) ≤ clusterAspect g ∧ clusterAspect g ≤ 4 := by
  unfold acceptAspectB clusterAspect
  split
  case isTrue hpos =>
    have hq : (0 : ℚ) < (clusterHeight g : ℚ) := by exact_mod_cast hpos
    rw [Bool.and_eq_true, decide_eq_true_iff, decide_eq_true_iff,
      le_div_iff₀ hq, div_le_iff₀ hq]
    constructor
    · rintro ⟨h1, h2⟩
      constructor
      · have h1q : (clusterHeight g : ℚ) ≤ 2 * (clusterWidth g : ℚ) := by exact_mod_cast h1
        linarith
      · have h2q : (clusterWidth g : ℚ) ≤ 4 * (clusterHeight g : ℚ) := by exact_mod_cast h2
        linarith
    · rintro ⟨h1, h2⟩
      constructor
      · have : (clusterHeight g : ℚ) ≤ 2 * (clusterWidth g : ℚ) := by linarith
        exact_mod_cast this
      · have : (clusterWidth g : ℚ) ≤ 4 * (clusterHeight g : ℚ) := by linarith
        exact_mod_cast this
  case isFalse hpos =>
    constructor
    · intro h; cases h
    · rintro ⟨h1, _⟩
      norm_num at h1

theorem acceptCluster_eq {g g' : List TextBlock} (h : acceptCluster g = some g') :
    g' = sortBlocksByY g ∧ acceptAspectB g = true := by
  unfold acceptCluster at h
  split at h
  · cases h
  · split at h
    case isTrue ha => exact ⟨(Option.some.inj h).symm, ha⟩
    case isFalse => cases h

theorem acceptClusterIdx_spec {blocks : List TextBlock} {comp : List Nat}
    {p : List Nat × List TextBlock} (h : acceptClusterIdx blocks comp = some p) :
    p.1 = comp ∧ p.2 = sortBlocksByY (comp.filterMap fun i => blocks.get? i) := by
  unfold acceptClusterIdx at h
  rcases hg : acceptCluster (comp.filterMap fun i => blocks.get? i) with _ | g'
  · rw [hg] at h; cases h
  · rw [hg] at h
    cases h
    exact ⟨rfl, (acceptCluster_eq hg).1⟩

theorem mem_of_mem_accepted {blocks : List TextBlock} {comp : List Nat}
    {p : List Nat × List TextBlock} (h : acceptClusterIdx blocks comp = some p) :
    ∀ b ∈ p.2, b ∈ blocks := by
  intro b hb
  rcases acceptClusterIdx_spec h with ⟨_, h2⟩
  rw [h2] at hb
  have hb2 : b ∈ comp.filterMap fun i => blocks.get? i := mem_sortByLe.1 hb
  rcases List.mem_filterMap.1 hb2 with ⟨i, _, hget⟩
  exact List.get?_mem hget

/-! ## Records -/

theorem extract_info_full_text {t : String} {info : ContactRecord}
    (h : extract_info_from_text t = some info) : info.full_text = t := by
  unfold extract_info_from_text at h
  by_cases hb : (t.data.isEmpty || (pyStrip t.data).isEmpty) = true
  · rw [if_pos hb] at h; cases h
  · rw [if_neg hb] at h
    cases h
    rfl

theorem recordOf_full_text {g : List TextBlock} {r : ContactRecord}
    (h : recordOf g = some r) : r.full_text = joinTexts g := by
  unfold recordOf at h
  rcases he : extract_info_from_text (joinTexts g) with _ | info <;> rw [he] at h
  · cases h
  · have h' : (if (truthy info.name || truthy info.company || truthy info.email) = true
        then some info else none) = some r := h
    by_cases hb :
      (truthy info.name || truthy info.company || truthy info.email) = true
    · rw [if_pos hb] at h'
      cases h'
      exact extract_info_full_text he
    · rw [if_neg hb] at h'
      cases h'

theorem records_full_text (gs : List (List TextBlock)) :
    ∀ r ∈ pipelineRecords gs, ∃ g ∈ gs, r.full_text = joinTexts g := by
  intro r hr
  rcases List.mem_filterMap.1 hr with ⟨g, hg, hrec⟩
  exact ⟨g, hg, recordOf_full_text hrec⟩

/-! ## Structure of the clustering output -/

theorem disjPair_symm :
    ∀ {p q : List Nat × List TextBlock},
      (∀ i, i ∈ p.1 → i ∉ q.1) → ∀ i, i ∈ q.1 → i ∉ p.1 :=
  fun h i hiq hip => h i hip hiq

theorem accepted_take_spec (blocks : List TextBlock) (comps : List (List Nat)) (k : Nat)
    (hdisj : comps.Pairwise fun c d => ∀ i, i ∈ c → i ∉ d) :
    (∀ p ∈ (sortByLe pairLe (comps.filterMap (acceptClusterIdx blocks))).take k,
        (∀ b ∈ p.2, b ∈ blocks) ∧ ∃ g0, p.2 = sortBlocksByY g0) ∧
    ((sortByLe pairLe (comps.filterMap (acceptClusterIdx blocks))).take k).Pairwise
      (fun p q => ∀ i, i ∈ p.1 → i ∉ q.1) ∧
    ((sortByLe pairLe (comps.filterMap (acceptClusterIdx blocks))).take k).Pairwise
      (fun p q => pairLe p q = true) ∧
    ((sortByLe pairLe (comps.filterMap (acceptClusterIdx blocks))).take k).length ≤ k := by
  refine ⟨?_, ?_, ?_, ?_⟩
  · intro p hp
    have hp2 : p ∈ comps.filterMap (acceptClusterIdx blocks) :=
      mem_sortByLe.1 ((List.take_subset _ _) hp)
    rcases List.mem_filterMap.1 hp2 with ⟨comp, _, hcp⟩
    exact ⟨mem_of_mem_accepted hcp, _, (acceptClusterIdx_spec hcp).2⟩
  · have h0 : (comps.filterMap (acceptClusterIdx blocks)).Pairwise
        (fun p q => ∀ i, i ∈ p.1 → i ∉ q.1) := by
      refine List.pairwise_filterMap.2 (hdisj.imp ?_)
      intro c d hcd p hpc q hqd i hip hiq
      have hc : p.1 = c := (acceptClusterIdx_spec (Option.mem_def.1 hpc)).1
      have hd : q.1 = d := (acceptClusterIdx_spec (Option.mem_def.1 hqd)).1
      exact hcd i (hc ▸ hip) (hd ▸ hiq)
    have h1 := (List.Perm.pairwise_iff (fun h => disjPair_symm h)
      (sortByLe_perm pairLe (comps.filterMap (acceptClusterIdx blocks)))).2 h0
    exact List.Pairwise.sublist (List.take_sublist _ _) h1
  · exact List.Pairwise.sublist (List.take_sublist _ _)
      (pairwise_sortByLe pairLe pairLe_total pairLe_trans _)
  · rw [List.length_take]
    exact min_le_left _ _

theorem clusteringPairs_spec (k : Nat) (hk : 1 ≤ k) (blocks : List TextBlock)
    (ps : List (List Nat × List TextBlock)) (h : clusteringPairs k blocks = some ps) :
    (∀ p ∈ ps, (∀ b ∈ p.2, b ∈ blocks) ∧ ∃ g0, p.2 = sortBlocksByY g0) ∧
    List.Pairwise (fun p q => ∀ i, i ∈ p.1 → i ∉ q.1) ps ∧
    List.Pairwise (fun p q => pairLe p q = true) ps ∧
    ps.length ≤ k := by
  rcases blocks with _ | ⟨x, _ | ⟨y, tl⟩⟩
  · simp only [clusteringPairs] at h
    injection h with h
    subst h
    simp
  · simp only [clusteringPairs] at h
    injection h with h
    subst h
    refine ⟨?_, ?_, ?_, ?_⟩
    · intro p hp
      rcases List.mem_singleton.1 hp with rfl
      refine ⟨?_, [x], rfl⟩
      intro b hb
      rcases List.mem_singleton.1 hb with rfl
      exact List.mem_singleton_self b
    · simp
    · simp
    · simpa using hk
  · simp only [clusteringPairs] at h
    split at h
    · cases h
    · injection h with h
      subst h
      exact accepted_take_spec _ _ k (componentsOf_pairwise_disjoint _ _)

/-! ## Lemmas about the extractors -/

/-- Whatever `findFirstFrom` returns is a contiguous substring of the input:
the matcher only consumes characters from the front of a scanned suffix. -/
theorem findFirstFrom_substring {r : RE} :
    ∀ {s m rest : List Char}, findFirstFrom r s = some (m, rest) → m <:+: s := by
  intro s
  induction s with
  | nil =>
    intro m rest h
    unfold findFirstFrom at h
    rcases hm : reMatch r [] some with _ | r0 <;> rw [hm] at h
    · cases h
    · cases h
      exact List.nil_infix
  | cons c t ih =>
    intro m rest h
    unfold findFirstFrom at h
    rcases hm : reMatch r (c :: t) some with _ | r0 <;> rw [hm] at h
    · exact List.infix_cons (ih h)
    · cases h
      exact (List.take_prefix _ _).isInfix

theorem phoneTryPat_not_mobile {r : RE} {s : List Char} {q : String}
    (h : phoneTryPat r s = some q) : isMobileNumber q.data = false := by
  unfold phoneTryPat at h
  rcases hf : findFirstFrom r s with _ | ⟨m, rest⟩ <;> rw [hf] at h
  · cases h
  · have h' : (if isMobileNumber (subAll telSubPat m) = true then none
        else some (String.mk (subAll telSubPat m))) = some q := h
    by_cases hm : isMobileNumber (subAll telSubPat m) = true
    · rw [if_pos hm] at h'; cases h'
    · rw [if_neg hm] at h'
      cases h'
      exact Bool.eq_false_iff.2 hm

/-- The pattern loop of `extract_phone` never returns a result whose digit
string starts with a mobile prefix. -/
theorem extract_phone_not_mobile (t : String) (p : String)
    (h : extract_phone t = some p) : isMobileNumber p.data = false := by
  have h0 : ((phoneTryPat phonePat1 (stripSpaces t.data)).orElse
      fun _ => phoneTryPat phonePat2 (stripSpaces t.data)) = some p := h
  rcases h1 : phoneTryPat phonePat1 (stripSpaces t.data) with _ | q <;> rw [h1] at h0
  · have h2 : phoneTryPat phonePat2 (stripSpaces t.data) = some p := h0
    exact phoneTryPat_not_mobile h2
  · have h2 : some q = some p := h0
    cases h2
    exact phoneTryPat_not_mobile h1

theorem stripSpaces_idem (l : List Char) : stripSpaces (stripSpaces l) = stripSpaces l := by
  unfold stripSpaces
  simp only [List.filter_filter]
  refine List.filter_congr ?_
  intro c _
  cases h1 : c == ' ' <;> cases h2 : c == '　' <;> simp [h1, h2]

/-- `extract_phone` is insensitive to (a second round of) space removal:
its only normalization is deleting ASCII and ideographic spaces. -/
theorem extract_phone_strip (t : String) :
    extract_phone (String.mk (stripSpaces t.data)) = extract_phone t := by
  show ((phoneTryPat phonePat1 (stripSpaces (stripSpaces t.data))).orElse
      fun _ => phoneTryPat phonePat2 (stripSpaces (stripSpaces t.data))) = _
  rw [stripSpaces_idem]
  rfl

/-- Shape of every `extract_company` success: the first of the first ten lines
containing a keyword, stripped — with no constraint on its length. -/
theorem companyLoop_spec :
    ∀ (ls : List (List Char)) (line : String), companyLoop ls = some line →
      ∃ l ∈ ls, line = String.mk (pyStrip l) ∧
        companyKeywords.any (fun kw => containsSeq kw.data l) = true := by
  intro ls
  induction ls with
  | nil => intro line h; cases h
  | cons l rest ih =>
    intro line h
    unfold companyLoop at h
    by_cases hb : companyKeywords.any (fun kw => containsSeq kw.data l) = true
    · rw [if_pos hb] at h
      cases h
      exact ⟨l, List.mem_cons_self _ _, rfl, hb⟩
    · rw [if_neg hb] at h
      rcases ih line h with ⟨l2, hl2, he, hkw⟩
      exact ⟨l2, List.mem_cons_of_mem _ hl2, he, hkw⟩

/-! ## Claims -/

/-- C1: for every input block set, every accepted cluster is a subset of the
original blocks, accepted clusters are pairwise disjoint — block identity
being its index, no TextBlock appears in two accepted clusters — and the
number of emitted records never exceeds 9 and never exceeds the number of
accepted clusters. -/
theorem C1_cluster_invariants (blocks : List TextBlock)
    (ps : List (List Nat × List TextBlock)) (h : clusteringPairs 9 blocks = some ps) :
    (∀ p ∈ ps, ∀ b ∈ p.2, b ∈ blocks) ∧
    List.Pairwise (fun p q => ∀ i, i ∈ p.1 → i ∉ q.1) ps ∧
    group_text_by_clustering 9 blocks = some (ps.map Prod.snd) ∧
    ps.length ≤ 9 ∧
    (pipelineRecords (ps.map Prod.snd)).length ≤ 9 ∧
    (pipelineRecords (ps.map Prod.snd)).length ≤ ps.length := by
  rcases clusteringPairs_spec 9 (by norm_num) blocks ps h with ⟨hmem, hdisj, _, hlen⟩
  have hrec : (pipelineRecords (ps.map Prod.snd)).length ≤ ps.length := by
    calc (pipelineRecords (ps.map Prod.snd)).length
        ≤ (ps.map Prod.snd).length := List.length_filterMap_le _ _
      _ = ps.length := List.length_map _ _
  refine ⟨fun p hp => (hmem p hp).1, hdisj, ?_, hlen, le_trans hrec hlen, hrec⟩
  unfold group_text_by_clustering
  rw [h]
  rfl

/-- Witness for C1 on a concrete two-card block set. -/
theorem C1_cluster_invariants_witness :
    (∀ p ∈ [([0], [blockW1]), ([1], [blockW2])], ∀ b ∈ p.2, b ∈ [blockW1, blockW2]) ∧
    List.Pairwise (fun p q => ∀ i, i ∈ p.1 → i ∉ q.1)
      [([0], [blockW1]), ([1], [blockW2])] ∧
    group_text_by_clustering 9 [blockW1, blockW2] =
      some ([([0], [blockW1]), ([1], [blockW2])].map Prod.snd) ∧
    ([([0], [blockW1]), ([1], [blockW2])] : List (List Nat × List TextBlock)).length ≤ 9 ∧
    (pipelineRecords ([([0], [blockW1]), ([1], [blockW2])].map Prod.snd)).length ≤ 9 ∧
    (pipelineRecords ([([0], [blockW1]), ([1], [blockW2])].map Prod.snd)).length ≤
      ([([0], [blockW1]), ([1], [blockW2])] : List (List Nat × List TextBlock)).length :=
  C1_cluster_invariants [blockW1, blockW2] [([0], [blockW1]), ([1], [blockW2])] (by decide)

/-- C2 counterexample: a successful OCR outcome (not a backend failure) with
one block whose record fails the name/company/email bar still makes
`process_image` return null — null does not only signal total backend
failure, refuting the claim as stated. -/
theorem C2_counterexample : process_image (Except.ok [blockXYZ]) = none := by decide

/-- C2 (amended): the pipeline returns the surviving record list when it is
non-empty; it returns the empty list exactly in the no-text-blocks case; it
returns null both for a backend error (the top-level handler catches the
exception instead of propagating it) and whenever no record passes the
retention bar. -/
theorem C2_amended_null_behaviour :
    (∀ e, process_image (Except.error e) = none) ∧
    process_image (Except.ok []) = some [] ∧
    (∀ blocks rs, process_image (Except.ok blocks) = some rs →
      blocks = [] ∨ rs ≠ []) := by
  refine ⟨fun e => rfl, rfl, ?_⟩
  intro blocks rs h
  have h' : (if blocks.isEmpty then some ([] : List ContactRecord)
      else match group_text_by_clustering 9 blocks with
        | none => none
        | some groups =>
          if (pipelineRecords groups).isEmpty then none
          else some (pipelineRecords groups)) = some rs := h
  by_cases hb : blocks.isEmpty = true
  · left
    exact List.isEmpty_iff.1 hb
  · right
    rw [if_neg hb] at h'
    rcases hg : group_text_by_clustering 9 blocks with _ | groups <;> rw [hg] at h'
    · cases h'
    · have h2 : (if (pipelineRecords groups).isEmpty then none
          else some (pipelineRecords groups)) = some rs := h'
      by_cases hr : (pipelineRecords groups).isEmpty = true
      · rw [if_pos hr] at h2; cases h2
      · rw [if_neg hr] at h2
        cases h2
        intro hcon
        exact hr (by rw [hcon]; rfl)

/-- Witness for C2 (amended) on a one-card input that yields a record. -/
theorem C2_amended_witness :
    ([companyBlockW] : List TextBlock) = [] ∨ ([companyRecordW] : List ContactRecord) ≠ [] :=
  C2_amended_null_behaviour.2.2 [companyBlockW] [companyRecordW] (by decide)

/-- C3 counterexample: the code performs no whitespace stripping and no
full-width normalization, so on `"test＠example。com"` it returns null rather
than the claimed `"test@example.com"`. -/
theorem C3_counterexample : extract_email "test＠example。com" = none := by decide

/-- C3 (amended): `extract_email` returns the leftmost match of the
`local@domain.tld` pattern in the raw text — always a verbatim contiguous
substring of the input, so no character is ever normalized — hence
`"test＠example。com"` yields null, while an ASCII address is returned as is. -/
theorem C3_amended_email_verbatim :
    (∀ t e, extract_email t = some e → e.data <:+: t.data) ∧
    extract_email "test＠example。com" = none ∧
    extract_email "test@example.com" = some "test@example.com" := by
  refine ⟨?_, by decide, by decide⟩
  intro t e h
  unfold extract_email at h
  rcases hf : findFirstFrom emailPat t.data with _ | ⟨m, rest⟩ <;> rw [hf] at h
  · cases h
  · have h2 : some (String.mk m) = some e := h
    cases h2
    exact findFirstFrom_substring hf

/-- Witness for C3 (amended): the match inside `"<a@b.com"` is its verbatim
substring. -/
theorem C3_amended_witness : ("a@b.com" : String).data <:+: ("<a@b.com" : String).data :=
  C3_amended_email_verbatim.1 "<a@b.com" "a@b.com" (by decide)

/-- C4 counterexample: there is no full-width normalization — full-width
digits make the extractor return null, while the text with the claimed
normalization applied extracts to the ASCII phone string. -/
theorem C4_counterexample :
    extract_phone "０３-１２３４-５６７８" = none ∧
    extract_phone "03-1234-5678" = some "03-1234-5678" :=
  ⟨by decide, by decide⟩

/-- C4 (amended): `extract_phone` normalizes only spaces (ASCII and
ideographic); no full-width digit/dash normalization happens.  For each
pattern in order it considers only that pattern's first match, strips the
TEL/電話 label, and returns the result only if it does not begin with
070/080/090 — so a returned phone never carries a mobile prefix.
`"TEL:03-1234-5678"` yields `"03-1234-5678"`; `"090-1234-5678"` yields null. -/
theorem C4_amended_phone :
    (∀ t p, extract_phone t = some p → isMobileNumber p.data = false) ∧
    (∀ t, extract_phone (String.mk (stripSpaces t.data)) = extract_phone t) ∧
    extract_phone "TEL:03-1234-5678" = some "03-1234-5678" ∧
    extract_phone "090-1234-5678" = none :=
  ⟨extract_phone_not_mobile, extract_phone_strip, by decide, by decide⟩

/-- Witness for C4 (amended): the phone returned for the labelled landline
input indeed has no mobile prefix. -/
theorem C4_amended_witness : isMobileNumber ("03-1234-5678" : String).data = false :=
  C4_amended_phone.1 "TEL:03-1234-5678" "03-1234-5678" (by decide)

/-- C5: the regex matches the FAX label case-insensitively but the exclusion
tests only the exact substrings `"FAX"` and `"fax"`, so the mixed-case label
`"Fax:090-1234-5678"` is returned — label included — instead of being
excluded as the claim (and the evident intent of the filter) requires; the
all-caps and bare inputs behave as claimed. -/
theorem C5_fax_case_bug :
    extract_mobile "Fax:090-1234-5678" = some "Fax:090-1234-5678" ∧
    extract_mobile "FAX:090-1234-5678" = none ∧
    extract_mobile "090-1234-5678" = some "090-1234-5678" :=
  ⟨by decide, by decide, by decide⟩

/-- C6 counterexample: `"GK"` is a qualifying line of length 2 — shorter than
the claimed minimum of 3 — yet the company field is that line, not null:
the code applies no length check at all. -/
theorem C6_counterexample : extract_company "GK" = some "GK" := by decide

set_option maxRecDepth 8000 in
/-- C6 (amended): company extraction returns the first of the first ten lines
containing a legal-entity keyword, stripped, with no constraint on its
length — a 2-character line and a 124-character line are both accepted. -/
theorem C6_amended_company :
    (∀ t line, extract_company t = some line →
      ∃ l ∈ (splitLines t.data).take 10, line = String.mk (pyStrip l) ∧
        companyKeywords.any (fun kw => containsSeq kw.data l) = true) ∧
    extract_company "GK" = some "GK" ∧
    extract_company longCompanyLine = some longCompanyLine :=
  ⟨fun t line h => companyLoop_spec _ line h, by decide, by decide⟩

/-- Witness for C6 (amended) at the two-character keyword line. -/
theorem C6_amended_witness :
    ∃ l ∈ (splitLines ("GK" : String).data).take 10,
      ("GK" : String) = String.mk (pyStrip l) ∧
        companyKeywords.any (fun kw => containsSeq kw.data l) = true :=
  C6_amended_company.1 "GK" "GK" (by decide)

/-- C7: `re.findall` on a pattern with a capturing group returns the group,
not the whole match, so the bare-domain fallback returns only the TLD:
`"example.com"` yields `"com"`, not the claimed full matched substring.  The
explicit-scheme pattern, which has no group, still returns its full match. -/
theorem C7_findall_group_bug :
    extract_website "example.com" = some "com" ∧
    extract_website "http://example.com" = some "http://example.com" :=
  ⟨by decide, by decide⟩

/-- C8: accepted clusters are ordered by (top-most block's vertical position,
then left-most block's horizontal position), blocks within each cluster are
sorted top to bottom, and every emitted record's full text is the join of its
cluster's block texts in that reading order. -/
theorem C8_reading_order (blocks : List TextBlock) (gs : List (List TextBlock))
    (h : group_text_by_clustering 9 blocks = some gs) :
    List.Pairwise (fun g g2 => (groupKey g).1 < (groupKey g2).1 ∨
      ((groupKey g).1 = (groupKey g2).1 ∧ (groupKey g).2 ≤ (groupKey g2).2)) gs ∧
    (∀ g ∈ gs, List.Pairwise (fun a b => a.y ≤ b.y) g) ∧
    (∀ r ∈ pipelineRecords gs, ∃ g ∈ gs, r.full_text = joinTexts g) := by
  unfold group_text_by_clustering at h
  rcases hp : clusteringPairs 9 blocks with _ | ps <;> rw [hp] at h
  · cases h
  · have hgs : some (ps.map Prod.snd) = some gs := h
    cases hgs
    rcases clusteringPairs_spec 9 (by norm_num) blocks ps hp with ⟨hmem, _, hsort, _⟩
    refine ⟨?_, ?_, records_full_text _⟩
    · refine List.pairwise_map.2 (hsort.imp ?_)
      intro p q hpq
      exact (keyLe_iff _ _).1 hpq
    · intro g hg
      rcases List.mem_map.1 hg with ⟨p, hp2, rfl⟩
      rcases (hmem p hp2).2 with ⟨g0, hg0⟩
      rw [hg0]
      exact (pairwise_sortByLe blockLe blockLe_total blockLe_trans g0).imp
        fun hab => of_decide_eq_true hab

/-- Witness for C8 on a concrete two-card block set. -/
theorem C8_reading_order_witness :
    List.Pairwise (fun g g2 => (groupKey g).1 < (groupKey g2).1 ∨
      ((groupKey g).1 = (groupKey g2).1 ∧ (groupKey g).2 ≤ (groupKey g2).2))
      [[blockW1], [blockW2]] ∧
    (∀ g ∈ [[blockW1], [blockW2]], List.Pairwise (fun a b => a.y ≤ b.y) g) ∧
    (∀ r ∈ pipelineRecords [[blockW1], [blockW2]],
      ∃ g ∈ [[blockW1], [blockW2]], r.full_text = joinTexts g) :=
  C8_reading_order [blockW1, blockW2] [[blockW1], [blockW2]] (by decide)

/-- C9: the blocks-to-records pipeline is a pure, deterministic function of
its block input — the embedding has no hidden state, so two runs on identical
input produce identical ContactRecord output. -/
theorem C9_deterministic (b1 b2 : List TextBlock) (h : b1 = b2) :
    processBlocks b1 = processBlocks b2 :=
  congrArg processBlocks h

/-- Witness for C9 at a concrete input. -/
theorem C9_deterministic_witness :
    processBlocks [companyBlockW] = processBlocks [companyBlockW] :=
  C9_deterministic [companyBlockW] [companyBlockW] rfl

/-- C10: a candidate cluster of zero height gets aspect ratio 0 from the
guarded definition — the `else` branch, no division performed — and 0 lies
outside the `[0.5, 4]` window, so every zero-height cluster is rejected. -/
theorem C10_zero_height_rejected (g : List TextBlock) (h : clusterHeight g = 0) :
    clusterAspect g = 0 ∧ acceptCluster g = none := by
  constructor
  · unfold clusterAspect
    rw [h]
    simp
  · unfold acceptCluster
    split
    · rfl
    · have ha : acceptAspectB g = false := by
        unfold acceptAspectB
        rw [h]
        simp
      rw [ha]
      simp

/-- Witness for C10 at a concrete zero-height one-block cluster. -/
theorem C10_zero_height_witness :
    clusterAspect [zeroHeightBlock] = 0 ∧ acceptCluster [zeroHeightBlock] = none :=
  C10_zero_height_rejected [zeroHeightBlock] (by decide)

end Namecard

